import Mathlib

/-!
Shallow embedding of the share-here notes application.

Source files embedded here:
  * `src/lib/users.ts` / `src/unnamed/part_006` — static user directory and
    the session codec (`createSessionToken`, `verifySessionToken`).
  * `src/lib/storage.ts` — the per-user storage adapter
    (`getUserEntries`, `saveUserEntries`, `createUserEntry`,
    `updateUserEntry`, `deleteUserEntry`).
  * `src/app/api/content/route.ts` — the `POST` and `PUT` content routes.

Modelling conventions:
  * Timestamps (`Date.now()`, `new Date().toISOString()` on note records)
    are modelled as `Nat` milliseconds.  ISO-8601 strings produced from the
    same clock compare lexicographically exactly as the underlying instants
    compare, so the order structure is preserved.
  * The wall clock, and the generated note id
    (`Date.now().toString() + Math.random()...`), are explicit parameters of
    the operations that read them.
  * A session token on the wire is `base64(JSON.stringify(session))`.
    `Buffer.from(tok, "base64")` never throws and `JSON.parse` inverts
    `JSON.stringify` on records, so the codec is modelled after the
    base64/JSON layer: a `DecodedToken` is either the parsed record or a
    parse failure.  The parsed record carries `expiresAt` as an `Option`,
    because a JSON object without that field yields `undefined`, and the
    JavaScript test `undefined < Date.now()` evaluates to `false`.
  * JavaScript truthiness tests on request-body strings (`!title`) are
    modelled by `falsyStr`: the field is absent (`none`) or the empty
    string.
  * The backing store is a pair of string-keyed maps (the remote KV and the
    in-memory fallback) plus an availability flag: when `kvAvailable` is
    true every `kv.get` / `kv.set` succeeds, otherwise both throw and the
    code falls into its `catch` branch.  `kv.get` returning JavaScript
    `null` (key absent) is `none`; note that an empty array from KV is
    truthy in JavaScript, so `some []` does NOT fall through to memory.
-/

namespace ShareHere

/-- `FileAttachment` from `src/lib/storage.ts`.  The base64 payload and the
upload timestamp are never inspected by the embedded logic and stay
strings. -/
structure FileAttachment where
  id : String
  filename : String
  mimeType : String
  size : Nat
  data : String
  uploadedAt : String
deriving DecidableEq

/-- `TextEntry` from `src/lib/storage.ts`.  `attachments?` is optional in
the TypeScript interface, hence the `Option`. -/
structure TextEntry where
  id : String
  title : String
  content : String
  createdAt : Nat
  updatedAt : Nat
  userId : String
  attachments : Option (List FileAttachment)
deriving DecidableEq

/-- `User` from `src/lib/users.ts`.  The role union type
`"admin" | "user" | "demo"` is modelled as a plain string, which is how the
session codec treats it. -/
structure User where
  id : String
  username : String
  passwordHash : String
  role : String
  name : String
deriving DecidableEq

/-- The static user list `USERS` from `src/lib/users.ts`. -/
def USERS : List User :=
  [ { id := "1"
      username := "admin"
      passwordHash := "admin123"
      role := "admin"
      name := "Administrator" },
    { id := "2"
      username := "john"
      passwordHash := "john123"
      role := "user"
      name := "John Doe" },
    { id := "3"
      username := "sarah"
      passwordHash := "sarah123"
      role := "user"
      name := "Sarah Wilson" },
    { id := "4"
      username := "demo"
      passwordHash := "demo123"
      role := "demo"
      name := "Demo User" } ]

/-- The `AuthSession` record as it comes out of `JSON.parse` in
`verifySessionToken` (`src/unnamed/part_006`).  `expiresAt` is `Option`
because the parsed object may lack the field (JavaScript `undefined`); the
four string fields are modelled as present. -/
structure ParsedSession where
  userId : String
  username : String
  role : String
  name : String
  expiresAt : Option Nat
deriving DecidableEq

/-- A token after the base64/JSON layer: either `JSON.parse` produced a
session-shaped record, or it threw (the `catch` branch of
`verifySessionToken`). -/
inductive DecodedToken where
  | parsed (s : ParsedSession)
  | parseError
deriving DecidableEq

/-- `SESSION_DURATION = 24 * 60 * 60 * 1000` from `src/unnamed/part_006`. -/
def SESSION_DURATION : Nat := 24 * 60 * 60 * 1000

/-- `createSessionToken` from `src/unnamed/part_006`: embeds the user id,
username, role, name and `expiresAt = Date.now() + SESSION_DURATION` into
the token. -/
def createSessionToken (user : User) (now : Nat) : DecodedToken :=
  DecodedToken.parsed
    { userId := user.id
      username := user.username
      role := user.role
      name := user.name
      expiresAt := some (now + SESSION_DURATION) }

/-- `verifySessionToken` from `src/unnamed/part_006`: returns `null` when
`JSON.parse` throws, returns `null` when `sessionData.expiresAt < Date.now()`,
and otherwise returns the parsed record.  When `expiresAt` is absent the
JavaScript comparison `undefined < Date.now()` is `false`, so the record is
returned. -/
def verifySessionToken (token : DecodedToken) (now : Nat) : Option ParsedSession :=
  match token with
  | DecodedToken.parseError => none
  | DecodedToken.parsed s =>
    match s.expiresAt with
    | some e => if e < now then none else some s
    | none => some s

/-- The backing-store state: the remote KV map, the module-level
`memoryStorage` map, and whether the KV service is reachable. -/
structure Store where
  kvAvailable : Bool
  kv : String → Option (List TextEntry)
  memory : String → Option (List TextEntry)

/-- Pointwise map update, modelling `kv.set` / `memoryStorage.set`. -/
def mapInsert (k : String) (v : List TextEntry)
    (m : String → Option (List TextEntry)) : String → Option (List TextEntry) :=
  fun q => if q = k then some v else m q

/-- `getUserStorageKey` from `src/lib/storage.ts`. -/
def getUserStorageKey (userId : String) : String :=
  "user:" ++ userId ++ ":notes"

/-- `getUserEntries` from `src/lib/storage.ts`: try KV first; a non-null KV
value is returned re-filtered by owner ("Double-check user isolation"); a
null KV value, or a KV failure, falls back to `memoryStorage.get(key) || []`
with NO re-filtering. -/
def getUserEntries (userId : String) (store : Store) : List TextEntry :=
  let storageKey := getUserStorageKey userId
  if store.kvAvailable then
    match store.kv storageKey with
    | some kvEntries => kvEntries.filter (fun entry => entry.userId == userId)
    | none => (store.memory storageKey).getD []
  else
    (store.memory storageKey).getD []

/-- `saveUserEntries` from `src/lib/storage.ts`: filters the list down to
entries owned by `userId`, then writes to KV, falling back to the memory map
when KV is unavailable. -/
def saveUserEntries (userId : String) (entries : List TextEntry)
    (store : Store) : Store :=
  let storageKey := getUserStorageKey userId
  let userEntries := entries.filter (fun entry => entry.userId == userId)
  if store.kvAvailable then
    { store with kv := mapInsert storageKey userEntries store.kv }
  else
    { store with memory := mapInsert storageKey userEntries store.memory }

/-- `createUserEntry` from `src/lib/storage.ts`: reads the current list,
builds the new entry (trimmed title/content, `createdAt = updatedAt = now`,
`attachments || []`), prepends it and saves. -/
def createUserEntry (userId title content : String)
    (attachments : Option (List FileAttachment)) (now : Nat) (newId : String)
    (store : Store) : TextEntry × Store :=
  let entries := getUserEntries userId store
  let newEntry : TextEntry :=
    { id := newId
      title := title.trim
      content := content.trim
      createdAt := now
      updatedAt := now
      userId := userId
      attachments := some (attachments.getD []) }
  let updatedEntries := newEntry :: entries
  (newEntry, saveUserEntries userId updatedEntries store)

/-- The record built for the matched entry inside `updateUserEntry`
(`{ ...entries[entryIndex], title: title.trim(), ... }`): new trimmed
title and content, refreshed `updatedAt`, attachments replaced only when
the argument is not `undefined`; id, `createdAt` and `userId` are copied
over. -/
def applyEntryUpdate (title content : String)
    (attachments : Option (List FileAttachment)) (now : Nat)
    (entry : TextEntry) : TextEntry :=
  { entry with
    title := title.trim
    content := content.trim
    updatedAt := now
    attachments :=
      if attachments.isSome then attachments else entry.attachments }

/-- The `findIndex`-then-assign step of `updateUserEntry`: locate the first
entry with matching id AND owner, replace it by `applyEntryUpdate` of it,
and return the updated entry together with the updated list; `none` when
`findIndex` returns `-1`. -/
def updateEntryInList (userId id title content : String)
    (attachments : Option (List FileAttachment)) (now : Nat) :
    List TextEntry → Option (TextEntry × List TextEntry)
  | [] => none
  | entry :: rest =>
    if entry.id == id && entry.userId == userId then
      let updatedEntry : TextEntry :=
        applyEntryUpdate title content attachments now entry
      some (updatedEntry, updatedEntry :: rest)
    else
      match updateEntryInList userId id title content attachments now rest with
      | none => none
      | some (u, restUpdated) => some (u, entry :: restUpdated)

/-- `updateUserEntry` from `src/lib/storage.ts`: read, find by
`(id, userId)`, mutate in place, save; `null` when not found (the store is
untouched in that case). -/
def updateUserEntry (userId id title content : String)
    (attachments : Option (List FileAttachment)) (now : Nat)
    (store : Store) : Option TextEntry × Store :=
  let entries := getUserEntries userId store
  match updateEntryInList userId id title content attachments now entries with
  | none => (none, store)
  | some (updatedEntry, updatedList) =>
    (some updatedEntry, saveUserEntries userId updatedList store)

/-- The `findIndex`-then-`splice` step of `deleteUserEntry`: remove the
first entry with matching id AND owner; `none` when absent. -/
def removeEntryFromList (userId id : String) :
    List TextEntry → Option (List TextEntry)
  | [] => none
  | entry :: rest =>
    if entry.id == id && entry.userId == userId then
      some rest
    else
      (removeEntryFromList userId id rest).map (fun l => entry :: l)

/-- `deleteUserEntry` from `src/lib/storage.ts`: read, find by
`(id, userId)`, splice out, save; `false` when not found. -/
def deleteUserEntry (userId id : String) (store : Store) : Bool × Store :=
  let entries := getUserEntries userId store
  match removeEntryFromList userId id entries with
  | none => (false, store)
  | some reduced => (true, saveUserEntries userId reduced store)

/-- A response from a content route: either a success payload carrying the
affected entry, or an error with an HTTP status and message. -/
inductive ApiResponse where
  | ok (entry : TextEntry)
  | err (status : Nat) (message : String)
deriving DecidableEq

/-- The HTTP status of a response (`NextResponse.json` defaults to 200 on
the success paths). -/
def ApiResponse.status : ApiResponse → Nat
  | ApiResponse.ok _ => 200
  | ApiResponse.err s _ => s

/-- JavaScript truthiness test `!x` on an optional request-body string:
true exactly when the field is absent (`undefined`) or the empty string. -/
def falsyStr : Option String → Bool
  | none => true
  | some s => s.isEmpty

/-- The JSON body of `POST /api/content`
(`const { title, content, token, attachments } = body`).  The token field
is carried in decoded form (see `DecodedToken`); an absent token is
`none`. -/
structure PostBody where
  title : Option String
  content : Option String
  token : Option DecodedToken
  attachments : Option (List FileAttachment)

/-- The JSON body of `PUT /api/content`
(`const { id, title, content, token, attachments } = body`). -/
structure PutBody where
  id : Option String
  title : Option String
  content : Option String
  token : Option DecodedToken
  attachments : Option (List FileAttachment)

/-- `POST /api/content` from `src/app/api/content/route.ts`: 401 when the
token is absent or does not verify; 400 when title or content is falsy,
when `title.length > 100`, or when `content.length > 5000`; otherwise
`createUserEntry` runs and the new entry is returned.  Note that the
attachments field is passed through without any validation. -/
def POST (body : PostBody) (now : Nat) (newId : String) (store : Store) :
    ApiResponse × Store :=
  match body.token with
  | none => (ApiResponse.err 401 "Authentication token required", store)
  | some token =>
    match verifySessionToken token now with
    | none => (ApiResponse.err 401 "Invalid or expired token", store)
    | some session =>
      if falsyStr body.title || falsyStr body.content then
        (ApiResponse.err 400 "Title and content are required", store)
      else if ((body.title.getD "").length > 100) then
        (ApiResponse.err 400 "Title too long (max 100 characters)", store)
      else if ((body.content.getD "").length > 5000) then
        (ApiResponse.err 400 "Content too long (max 5000 characters)", store)
      else
        let (entry, newStore) :=
          createUserEntry session.userId (body.title.getD "")
            (body.content.getD "") body.attachments now newId store
        (ApiResponse.ok entry, newStore)

/-- `PUT /api/content` from `src/app/api/content/route.ts`: 401 on auth
failure; 400 when id, title or content is falsy or a length limit is
exceeded; then `updateUserEntry`, whose `null` is mapped to 404 ("Entry not
found or access denied"). -/
def PUT (body : PutBody) (now : Nat) (store : Store) : ApiResponse × Store :=
  match body.token with
  | none => (ApiResponse.err 401 "Authentication token required", store)
  | some token =>
    match verifySessionToken token now with
    | none => (ApiResponse.err 401 "Invalid or expired token", store)
    | some session =>
      if falsyStr body.id || falsyStr body.title || falsyStr body.content then
        (ApiResponse.err 400 "ID, title, and content are required", store)
      else if ((body.title.getD "").length > 100) then
        (ApiResponse.err 400 "Title too long (max 100 characters)", store)
      else if ((body.content.getD "").length > 5000) then
        (ApiResponse.err 400 "Content too long (max 5000 characters)", store)
      else
        match updateUserEntry session.userId (body.id.getD "")
          (body.title.getD "") (body.content.getD "") body.attachments now
          store with
        | (none, newStore) =>
          (ApiResponse.err 404 "Entry not found or access denied", newStore)
        | (some entry, newStore) => (ApiResponse.ok entry, newStore)

/-- One call into the storage adapter, with the inputs the adapter reads
from the environment (clock, generated id) made explicit; `kvToggle`
models the KV service becoming reachable or unreachable between calls
(the availability probe in `src/lib/storage.ts` is per call). -/
inductive StoreOp where
  | save (userId : String) (entries : List TextEntry)
  | create (userId title content : String)
      (attachments : Option (List FileAttachment)) (now : Nat) (newId : String)
  | update (userId id title content : String)
      (attachments : Option (List FileAttachment)) (now : Nat)
  | delete (userId id : String)
  | kvToggle (available : Bool)

/-- Apply one storage-adapter call to the store state. -/
def applyOp (store : Store) : StoreOp → Store
  | StoreOp.save userId entries => saveUserEntries userId entries store
  | StoreOp.create userId title content attachments now newId =>
    (createUserEntry userId title content attachments now newId store).2
  | StoreOp.update userId id title content attachments now =>
    (updateUserEntry userId id title content attachments now store).2
  | StoreOp.delete userId id => (deleteUserEntry userId id store).2
  | StoreOp.kvToggle available => { store with kvAvailable := available }

/-- The store before any write: both maps empty; the initial availability
of the KV service is arbitrary. -/
def emptyStore (kvAvailable : Bool) : Store :=
  { kvAvailable := kvAvailable, kv := fun _ => none, memory := fun _ => none }

/-- The stored-ownership invariant: the collection persisted under the
storage key of any user — in the remote KV or in the memory fallback —
contains only entries whose `userId` is that user. -/
def WellFormed (store : Store) : Prop :=
  ∀ userId : String,
    (∀ l, store.kv (getUserStorageKey userId) = some l →
      ∀ e ∈ l, e.userId = userId) ∧
    (∀ l, store.memory (getUserStorageKey userId) = some l →
      ∀ e ∈ l, e.userId = userId)

/-! ### Helper lemmas -/

theorem getUserStorageKey_inj {a b : String}
    (h : getUserStorageKey a = getUserStorageKey b) : a = b := by
  unfold getUserStorageKey at h
  have hd : ("user:".data ++ a.data) ++ ":notes".data =
      ("user:".data ++ b.data) ++ ":notes".data := by
    have := congrArg String.data h
    simpa [String.data_append, List.append_assoc] using this
  have hd2 : a.data = b.data :=
    List.append_cancel_left (List.append_cancel_right hd)
  cases a; cases b; exact congrArg String.mk hd2

theorem mem_filter_owner {e : TextEntry} {userId : String}
    {l : List TextEntry}
    (h : e ∈ l.filter (fun x => x.userId == userId)) : e.userId = userId := by
  have := (List.mem_filter.mp h).2
  simpa using this

/-- On the KV path with a non-null value, the read is the owner-filtered
KV list. -/
theorem getUserEntries_kv_some {s : Store} {userId : String}
    {l : List TextEntry} (hkv : s.kvAvailable = true)
    (h : s.kv (getUserStorageKey userId) = some l) :
    getUserEntries userId s = l.filter (fun e => e.userId == userId) := by
  simp [getUserEntries, hkv, h]

/-- On the KV path with a null value, the read falls through to the memory
map, unfiltered. -/
theorem getUserEntries_kv_none {s : Store} {userId : String}
    (hkv : s.kvAvailable = true)
    (h : s.kv (getUserStorageKey userId) = none) :
    getUserEntries userId s = (s.memory (getUserStorageKey userId)).getD [] := by
  simp [getUserEntries, hkv, h]

/-- When KV is unavailable, the read is the memory map content,
unfiltered. -/
theorem getUserEntries_fallback {s : Store} (hkv : s.kvAvailable = false)
    (userId : String) :
    getUserEntries userId s = (s.memory (getUserStorageKey userId)).getD [] := by
  simp [getUserEntries, hkv]

theorem saveUserEntries_kv {s : Store} (hkv : s.kvAvailable = true)
    (userId : String) (entries : List TextEntry) :
    saveUserEntries userId entries s =
      { s with kv := mapInsert (getUserStorageKey userId) (entries.filter (fun e => e.userId == userId)) s.kv } := by
  simp [saveUserEntries, hkv]

theorem saveUserEntries_mem {s : Store} (hkv : s.kvAvailable = false)
    (userId : String) (entries : List TextEntry) :
    saveUserEntries userId entries s =
      { s with memory := mapInsert (getUserStorageKey userId) (entries.filter (fun e => e.userId == userId)) s.memory } := by
  simp [saveUserEntries, hkv]

theorem mapInsert_self (k : String) (v : List TextEntry)
    (m : String → Option (List TextEntry)) : mapInsert k v m k = some v := by
  simp [mapInsert]

theorem mapInsert_ne {q k : String} (h : q ≠ k) (v : List TextEntry)
    (m : String → Option (List TextEntry)) : mapInsert k v m q = m q := by
  simp [mapInsert, h]

theorem filter_owner_idem (userId : String) (l : List TextEntry) :
    (l.filter (fun e => e.userId == userId)).filter
        (fun e => e.userId == userId) =
      l.filter (fun e => e.userId == userId) :=
  List.filter_eq_self.mpr (fun _ ha => (List.mem_filter.mp ha).2)

/-- Reading back the collection just saved for the same user yields exactly
the owner-filtered list, on the KV path and on the fallback path alike. -/
theorem getUserEntries_save (userId : String) (l : List TextEntry) (s : Store) :
    getUserEntries userId (saveUserEntries userId l s) =
      l.filter (fun e => e.userId == userId) := by
  unfold getUserEntries saveUserEntries
  cases hkv : s.kvAvailable with
  | true => simp [hkv, mapInsert_self, filter_owner_idem]
  | false => simp [hkv, mapInsert_self]

theorem wellFormed_empty (b : Bool) : WellFormed (emptyStore b) := by
  intro u
  constructor <;> intro l hl <;> simp [emptyStore] at hl

/-- Inserting an owner-clean list under the owner key preserves the
per-key ownership discipline of a map. -/
theorem mapInsert_wf {m : String → Option (List TextEntry)}
    (hm : ∀ u l, m (getUserStorageKey u) = some l → ∀ e ∈ l, e.userId = u)
    (userId : String) (l0 : List TextEntry)
    (hl0 : ∀ e ∈ l0, e.userId = userId) :
    ∀ u l, mapInsert (getUserStorageKey userId) l0 m (getUserStorageKey u) = some l →
      ∀ e ∈ l, e.userId = u := by
  intro u l hl e he
  unfold mapInsert at hl
  by_cases hq : getUserStorageKey u = getUserStorageKey userId
  · rw [if_pos hq] at hl
    cases hl
    have hu : u = userId := getUserStorageKey_inj hq
    exact hu ▸ hl0 e he
  · rw [if_neg hq] at hl
    exact hm u l hl e he

theorem wellFormed_save (userId : String) (entries : List TextEntry)
    {s : Store} (hs : WellFormed s) :
    WellFormed (saveUserEntries userId entries s) := by
  have hflt : ∀ e ∈ entries.filter (fun e => e.userId == userId), e.userId = userId :=
    fun _ he => mem_filter_owner he
  have hkvh : ∀ u l, s.kv (getUserStorageKey u) = some l → ∀ e ∈ l, e.userId = u :=
    fun u => (hs u).1
  have hmemh : ∀ u l, s.memory (getUserStorageKey u) = some l → ∀ e ∈ l, e.userId = u :=
    fun u => (hs u).2
  cases hkvb : s.kvAvailable with
  | true =>
    rw [saveUserEntries_kv hkvb]
    exact fun u => ⟨mapInsert_wf hkvh userId _ hflt u, hmemh u⟩
  | false =>
    rw [saveUserEntries_mem hkvb]
    exact fun u => ⟨hkvh u, mapInsert_wf hmemh userId _ hflt u⟩

/-- Under the stored-ownership invariant, every entry `getUserEntries`
returns is owned by the requested user (the KV path by the re-filter, the
fallback path by the invariant). -/
theorem mem_getUserEntries_owner {store : Store} (hWF : WellFormed store)
    (userId : String) : ∀ e ∈ getUserEntries userId store, e.userId = userId := by
  intro e he
  cases hkv : store.kvAvailable with
  | true =>
    cases hkvget : store.kv (getUserStorageKey userId) with
    | some l =>
      rw [getUserEntries_kv_some hkv hkvget] at he
      exact mem_filter_owner he
    | none =>
      rw [getUserEntries_kv_none hkv hkvget] at he
      cases hmem : store.memory (getUserStorageKey userId) with
      | some l =>
        rw [hmem] at he
        exact (hWF userId).2 l hmem e (by simpa using he)
      | none => rw [hmem] at he; simp at he
  | false =>
    rw [getUserEntries_fallback hkv] at he
    cases hmem : store.memory (getUserStorageKey userId) with
    | some l =>
      rw [hmem] at he
      exact (hWF userId).2 l hmem e (by simpa using he)
    | none => rw [hmem] at he; simp at he

theorem wellFormed_applyOp {s : Store} (hs : WellFormed s) (op : StoreOp) :
    WellFormed (applyOp s op) := by
  cases op with
  | save userId entries => exact wellFormed_save userId entries hs
  | create userId title content attachments now newId =>
    exact wellFormed_save userId _ hs
  | update userId id title content attachments now =>
    show WellFormed (updateUserEntry userId id title content attachments now s).2
    unfold updateUserEntry
    cases h : updateEntryInList userId id title content attachments now
        (getUserEntries userId s) with
    | none => simpa [h] using hs
    | some p => simpa [h] using wellFormed_save userId p.2 hs
  | delete userId id =>
    show WellFormed (deleteUserEntry userId id s).2
    unfold deleteUserEntry
    cases h : removeEntryFromList userId id (getUserEntries userId s) with
    | none => simpa [h] using hs
    | some reduced => simpa [h] using wellFormed_save userId reduced hs
  | kvToggle b => exact fun u => hs u

theorem wellFormed_foldl (ops : List StoreOp) {s : Store} (hs : WellFormed s) :
    WellFormed (ops.foldl applyOp s) := by
  induction ops generalizing s with
  | nil => exact hs
  | cons op rest ih => exact ih (wellFormed_applyOp hs op)

/-! ### Claim theorems -/

/-- C2: for every user in the static user list, verifying the token issued
for that user at any time strictly before the embedded expiry
(issue time + 24h) returns a session whose userId, username, role and name
are the user's. -/
theorem session_token_roundtrip (u : User) (hu : u ∈ USERS)
    (tIssue tVerify : Nat) (h : tVerify < tIssue + SESSION_DURATION) :
    verifySessionToken (createSessionToken u tIssue) tVerify =
      some { userId := u.id, username := u.username, role := u.role, name := u.name, expiresAt := some (tIssue + SESSION_DURATION) } := by
  simp only [createSessionToken, verifySessionToken]
  rw [if_neg (by omega)]

/-- Witness for C2: the admin user, token issued at time 0 and verified one
millisecond before the 24-hour expiry. -/
theorem session_token_roundtrip_witness :
    verifySessionToken (createSessionToken { id := "1", username := "admin", passwordHash := "admin123", role := "admin", name := "Administrator" } 0) 86399999 =
      some { userId := "1", username := "admin", role := "admin", name := "Administrator", expiresAt := some 86400000 } :=
  session_token_roundtrip _ (by decide) 0 86399999 (by decide)

/-- C3 is refuted on two concrete tokens: a token that parses to a record
with no expiresAt field is returned as a valid session (the claim demands
null on malformed structure), and a token whose expiresAt equals the
current time is accepted (the claim demands null whenever
expiresAt <= now). -/
theorem verify_fails_closed_counterexample :
    verifySessionToken (DecodedToken.parsed { userId := "1", username := "admin", role := "admin", name := "Administrator", expiresAt := none }) 1000 ≠ none ∧
    verifySessionToken (DecodedToken.parsed { userId := "1", username := "admin", role := "admin", name := "Administrator", expiresAt := some 1000 }) 1000 ≠ none := by
  decide

/-- C3 (amended): verifySessionToken returns invalid exactly on parse
failure or when the parsed record carries an expiresAt strictly below the
current time; a parsed record without expiresAt, or with
expiresAt = now, is returned as a session. -/
theorem verify_invalid_characterization (d : DecodedToken) (now : Nat) :
    verifySessionToken d now = none ↔
      d = DecodedToken.parseError ∨
        ∃ s e, d = DecodedToken.parsed s ∧ s.expiresAt = some e ∧ e < now := by
  cases d with
  | parseError => simp [verifySessionToken]
  | parsed s =>
    cases h : s.expiresAt with
    | none => simp [verifySessionToken, h]
    | some e =>
      by_cases hlt : e < now
      · simp [verifySessionToken, h, hlt]
      · simp [verifySessionToken, h, hlt]

/-- C8: immediately after createUserEntry, the list getUserEntries returns
for that user has the newly created note as its first element, and the new
note satisfies createdAt = updatedAt. -/
theorem create_list_roundtrip (userId title content : String)
    (attachments : Option (List FileAttachment)) (now : Nat) (newId : String)
    (store : Store) :
    (getUserEntries userId (createUserEntry userId title content attachments now newId store).2).head? =
      some (createUserEntry userId title content attachments now newId store).1 ∧
    (createUserEntry userId title content attachments now newId store).1.createdAt =
      (createUserEntry userId title content attachments now newId store).1.updatedAt := by
  refine ⟨?_, rfl⟩
  simp [createUserEntry, getUserEntries_save, List.filter_cons]

/-- C10: writes preserve stored ownership: the list saveUserEntries
persists (as read back) is the argument filtered to the owner, the entry
createUserEntry builds is stamped with the requesting userId, and after
any sequence of save/create/update/delete calls (with the KV service
coming and going arbitrarily) starting from the empty store, every
persisted collection contains only entries of its key's user. -/
theorem stored_ownership_invariant :
    (∀ userId entries store, getUserEntries userId (saveUserEntries userId entries store) = entries.filter (fun e => e.userId == userId)) ∧
    (∀ userId title content attachments now newId store, (createUserEntry userId title content attachments now newId store).1.userId = userId) ∧
    (∀ kvAvailable ops, WellFormed (List.foldl applyOp (emptyStore kvAvailable) ops)) :=
  ⟨getUserEntries_save, fun _ _ _ _ _ _ _ => rfl,
    fun b ops => wellFormed_foldl ops (wellFormed_empty b)⟩

/-- An entry owned by user "2", used to probe reads scoped to user "1". -/
def c4ForeignEntry : TextEntry :=
  { id := "n1", title := "t", content := "c", createdAt := 0, updatedAt := 0, userId := "2", attachments := none }

/-- A store whose memory fallback holds, under the storage key of user
"1", an entry owned by user "2" (the KV service is unreachable). -/
def c4LeakyStore : Store :=
  { kvAvailable := false, kv := fun _ => none, memory := fun k => if k = "user:1:notes" then some [c4ForeignEntry] else none }

/-- C4 is refuted: on the fallback path getUserEntries does not re-filter:
with the memory map holding a foreign entry under the key of user "1", the
read for user "1" returns that entry. -/
theorem read_refilter_counterexample :
    c4ForeignEntry ∈ getUserEntries "1" c4LeakyStore ∧
    c4ForeignEntry.userId ≠ "1" := by decide

/-- C4 (amended): the defensive re-filter exists only on the KV path: when
the KV service answers with a list, every returned entry has the requested
userId; on the fallback path the stored list is returned verbatim, so the
ownership guarantee holds there only for stores satisfying the
stored-ownership invariant (which all write paths maintain). -/
theorem read_refilter_amended (userId : String) (store : Store) :
    (∀ l, store.kvAvailable = true → store.kv (getUserStorageKey userId) = some l →
      ∀ e ∈ getUserEntries userId store, e.userId = userId) ∧
    (store.kvAvailable = false →
      getUserEntries userId store = (store.memory (getUserStorageKey userId)).getD []) ∧
    (WellFormed store → ∀ e ∈ getUserEntries userId store, e.userId = userId) := by
  refine ⟨?_, fun h => getUserEntries_fallback h userId,
    fun h => mem_getUserEntries_owner h userId⟩
  intro l hkv hsome e he
  rw [getUserEntries_kv_some hkv hsome] at he
  exact mem_filter_owner he

/-- An entry owned by user "1". -/
def c4wOwn : TextEntry :=
  { id := "a", title := "t", content := "c", createdAt := 0, updatedAt := 0, userId := "1", attachments := none }

/-- A store whose KV map holds, under the key of user "1", both an owned
and a foreign entry. -/
def c4wStore : Store :=
  { kvAvailable := true, kv := fun k => if k = "user:1:notes" then some [c4wOwn, c4ForeignEntry] else none, memory := fun _ => none }

/-- Witness for C4 (amended), on the KV path: the foreign entry stored
under the key of user "1" is filtered out of the read for user "1". -/
theorem read_refilter_amended_witness :
    c4ForeignEntry ∉ getUserEntries "1" c4wStore := by
  intro hmem
  have h := (read_refilter_amended "1" c4wStore).1 [c4wOwn, c4ForeignEntry]
    rfl (by decide) c4ForeignEntry hmem
  exact absurd h (by decide)

/-- The session record of the demo user with expiry at time 10, as parsed
from a token. -/
def demoSess : ParsedSession :=
  { userId := "4", username := "demo", role := "demo", name := "Demo User", expiresAt := some 10 }

/-- A token carrying `demoSess`. -/
def demoToken : DecodedToken := DecodedToken.parsed demoSess

/-- A POST body whose title is a single space. -/
def c5Body : PostBody :=
  { title := some " ", content := some "some content", token := some demoToken, attachments := none }

/-- C5 is refuted: an authenticated POST whose title is a single space
(hence empty after trimming) is not rejected: the response is a success,
an entry is stored for the user, and its title is the trim of the
space. -/
theorem blank_validation_counterexample :
    (POST c5Body 0 "id1" (emptyStore true)).1.status = 200 ∧
    (getUserEntries "4" (POST c5Body 0 "id1" (emptyStore true)).2).length = 1 ∧
    (getUserEntries "4" (POST c5Body 0 "id1" (emptyStore true)).2).head?.map TextEntry.title = some (" " : String).trim :=
  ⟨rfl, rfl, rfl⟩

/-- C5 (amended): the required-field validation tests JavaScript
falsiness, not trimmed emptiness: an authenticated POST (resp. PUT) is
rejected with a 400 and leaves the store untouched exactly when title or
content (resp. id, title or content) is absent or the empty string;
whitespace-only values pass validation. -/
theorem blank_validation_amended :
    (∀ body now newId store tok sess, body.token = some tok →
      verifySessionToken tok now = some sess →
      (falsyStr body.title || falsyStr body.content) = true →
      POST body now newId store = (ApiResponse.err 400 "Title and content are required", store)) ∧
    (∀ body now store tok sess, body.token = some tok →
      verifySessionToken tok now = some sess →
      (falsyStr body.id || falsyStr body.title || falsyStr body.content) = true →
      PUT body now store = (ApiResponse.err 400 "ID, title, and content are required", store)) := by
  constructor
  · intro body now newId store tok sess htok hver hfal
    unfold POST
    rw [htok]
    simp only [hver]
    rw [if_pos hfal]
  · intro body now store tok sess htok hver hfal
    unfold PUT
    rw [htok]
    simp only [hver]
    rw [if_pos hfal]

/-- A POST body with no title field at all. -/
def c5wBody : PostBody :=
  { title := none, content := some "c", token := some demoToken, attachments := none }

/-- Witness for C5 (amended): a POST with an absent title is rejected with
the 400 required-fields error and the store is untouched. -/
theorem blank_validation_amended_witness :
    POST c5wBody 0 "id1" (emptyStore true) = (ApiResponse.err 400 "Title and content are required", emptyStore true) :=
  blank_validation_amended.1 c5wBody 0 "id1" (emptyStore true) demoToken demoSess
    rfl (by decide) (by decide)

/-- C6: an authenticated POST whose title is longer than 100 characters
receives a 400 response and the store is returned unchanged:
createUserEntry is never invoked. -/
theorem title_length_atomicity (body : PostBody) (now : Nat) (newId : String)
    (store : Store) (tok : DecodedToken) (sess : ParsedSession)
    (htok : body.token = some tok) (hver : verifySessionToken tok now = some sess)
    (t : String) (htitle : body.title = some t) (hlen : 100 < t.length) :
    (POST body now newId store).1.status = 400 ∧
    (POST body now newId store).2 = store := by
  unfold POST
  rw [htok]
  simp only [hver]
  by_cases hfal : (falsyStr body.title || falsyStr body.content) = true
  · rw [if_pos hfal]; exact ⟨rfl, rfl⟩
  · rw [if_neg hfal, htitle]
    rw [if_pos (show ((some t).getD "").length > 100 from hlen)]
    exact ⟨rfl, rfl⟩

/-- A title of 101 copies of the letter a. -/
def c6Title : String := String.mk (List.replicate 101 'a')

/-- A POST body carrying the 101-character title. -/
def c6Body : PostBody :=
  { title := some c6Title, content := some "c", token := some demoToken, attachments := none }

/-- Witness for C6: the 101-character title is rejected with a 400 and the
empty store is returned unchanged. -/
theorem title_length_atomicity_witness :
    (POST c6Body 0 "id1" (emptyStore true)).1.status = 400 ∧
    (POST c6Body 0 "id1" (emptyStore true)).2 = emptyStore true :=
  title_length_atomicity c6Body 0 "id1" (emptyStore true) demoToken demoSess
    rfl (by decide) c6Title rfl (by decide)

/-- A 10MB attachment (twice the 5MB limit the claim demands). -/
def c7Att (n : Nat) : FileAttachment :=
  { id := toString n, filename := "f", mimeType := "text/plain", size := 10485760, data := "d", uploadedAt := "u" }

/-- Six oversized attachments (one more than the limit of five the claim
demands). -/
def c7Atts : List FileAttachment :=
  [c7Att 0, c7Att 1, c7Att 2, c7Att 3, c7Att 4, c7Att 5]

/-- A POST body carrying the six oversized attachments. -/
def c7Body : PostBody :=
  { title := some "t", content := some "c", token := some demoToken, attachments := some c7Atts }

/-- C7 is refuted: an authenticated POST carrying six attachments of 10MB
each is not rejected: the response is a success and the created entry
stores all six attachments. -/
theorem attachment_validation_counterexample :
    (POST c7Body 0 "id1" (emptyStore true)).1.status = 200 ∧
    ((getUserEntries "4" (POST c7Body 0 "id1" (emptyStore true)).2).head?.map (fun e => (e.attachments.getD []).length)) = some 6 :=
  ⟨rfl, rfl⟩

/-- C7 (amended): the POST route performs no validation of attachments at
all: every authenticated request with non-falsy title and content within
the length limits succeeds, the attachments field is passed through to
createUserEntry unchanged, and the created entry stores exactly that list
(defaulting to empty when the field is absent). -/
theorem attachment_passthrough_amended (body : PostBody) (now : Nat)
    (newId : String) (store : Store) (tok : DecodedToken) (sess : ParsedSession)
    (htok : body.token = some tok) (hver : verifySessionToken tok now = some sess)
    (hfal : (falsyStr body.title || falsyStr body.content) = false)
    (htl : ¬((body.title.getD "").length > 100))
    (hcl : ¬((body.content.getD "").length > 5000)) :
    POST body now newId store =
      (ApiResponse.ok (createUserEntry sess.userId (body.title.getD "") (body.content.getD "") body.attachments now newId store).1, (createUserEntry sess.userId (body.title.getD "") (body.content.getD "") body.attachments now newId store).2) ∧
    (createUserEntry sess.userId (body.title.getD "") (body.content.getD "") body.attachments now newId store).1.attachments = some (body.attachments.getD []) := by
  refine ⟨?_, rfl⟩
  unfold POST
  rw [htok]
  simp only [hver]
  rw [if_neg (by simp [hfal]), if_neg htl, if_neg hcl]

/-- Witness for C7 (amended): the six-oversized-attachments request
succeeds and the entry stores the six attachments. -/
theorem attachment_passthrough_amended_witness :
    POST c7Body 0 "id1" (emptyStore true) =
      (ApiResponse.ok (createUserEntry "4" "t" "c" (some c7Atts) 0 "id1" (emptyStore true)).1, (createUserEntry "4" "t" "c" (some c7Atts) 0 "id1" (emptyStore true)).2) ∧
    (createUserEntry "4" "t" "c" (some c7Atts) 0 "id1" (emptyStore true)).1.attachments = some c7Atts :=
  attachment_passthrough_amended c7Body 0 "id1" (emptyStore true) demoToken demoSess
    rfl (by decide) (by decide) (by decide) (by decide)

theorem updateEntryInList_some_owner {userId id title content : String}
    {att : Option (List FileAttachment)} {now : Nat} {l : List TextEntry}
    {u : TextEntry} {lu : List TextEntry}
    (h : updateEntryInList userId id title content att now l = some (u, lu)) :
    u.userId = userId := by
  induction l generalizing u lu with
  | nil => cases h
  | cons a t ih =>
    unfold updateEntryInList at h
    by_cases hc : (a.id == id && a.userId == userId) = true
    · rw [if_pos hc] at h
      cases h
      have ha : a.userId = userId := by
        have := (Bool.and_eq_true _ _).mp hc
        simpa using this.2
      exact ha
    · rw [if_neg hc] at h
      cases hrec : updateEntryInList userId id title content att now t with
      | none => rw [hrec] at h; cases h
      | some p =>
        rw [hrec] at h
        cases p with
        | mk v lv =>
          cases h
          exact ih hrec

theorem updateEntryInList_none {userId id title content : String}
    {att : Option (List FileAttachment)} {now : Nat} {l : List TextEntry}
    (h : ∀ e ∈ l, e.id ≠ id) :
    updateEntryInList userId id title content att now l = none := by
  induction l with
  | nil => rfl
  | cons a t ih =>
    unfold updateEntryInList
    rw [if_neg (by simp [h a (List.mem_cons_self a t)]),
      ih (fun e he => h e (List.mem_cons_of_mem a he))]

theorem removeEntryFromList_none {userId id : String} {l : List TextEntry}
    (h : ∀ e ∈ l, e.id ≠ id) :
    removeEntryFromList userId id l = none := by
  induction l with
  | nil => rfl
  | cons a t ih =>
    unfold removeEntryFromList
    rw [if_neg (by simp [h a (List.mem_cons_self a t)]),
      ih (fun e he => h e (List.mem_cons_of_mem a he))]
    rfl

/-- A note of user "1" with id "x". -/
def c1NoteA : TextEntry :=
  { id := "x", title := "ta", content := "ca", createdAt := 0, updatedAt := 0, userId := "1", attachments := none }

/-- A note of user "2" that happens to carry the same id "x". -/
def c1NoteB : TextEntry :=
  { id := "x", title := "tb", content := "cb", createdAt := 0, updatedAt := 0, userId := "2", attachments := none }

/-- A store reached by two adapter writes: the note of user "1" saved
under the key of user "1" and the colliding note of user "2" saved under
the key of user "2". -/
def c1Store : Store :=
  saveUserEntries "2" [c1NoteB] (saveUserEntries "1" [c1NoteA] (emptyStore true))

/-- C1 is refuted under an id collision: the note of user "1" has id "x"
and user "2" owns a note with the same id, so an update (and a delete) by
user "2" targeting id "x" succeeds on the own note of user "2" instead of
returning null (resp. false) as the claim demands. -/
theorem cross_user_isolation_counterexample :
    c1NoteA ∈ getUserEntries "1" c1Store ∧ c1NoteA.userId = "1" ∧
    ("2" : String) ≠ "1" ∧
    (updateUserEntry "2" c1NoteA.id "t2" "c2" none 5 c1Store).1 ≠ none ∧
    (deleteUserEntry "2" c1NoteA.id c1Store).1 = true := by decide

/-- C1 (amended): under the stored-ownership invariant, a user B distinct
from A never observes a note N of A: N never appears in the list read for
B, any entry an update by B targeting the id of N returns is owned by B,
and unless B owns an entry sharing the id of N (an id collision),
updateUserEntry returns null and deleteUserEntry returns false. -/
theorem cross_user_isolation_amended (A B : String) (N : TextEntry)
    (store : Store) (hWF : WellFormed store)
    (hmem : N ∈ getUserEntries A store) (hown : N.userId = A) (hne : B ≠ A)
    (title content : String) (att : Option (List FileAttachment)) (now : Nat) :
    N ∉ getUserEntries B store ∧
    (∀ r, (updateUserEntry B N.id title content att now store).1 = some r →
      r.userId = B) ∧
    ((∀ e ∈ getUserEntries B store, e.id ≠ N.id) →
      (updateUserEntry B N.id title content att now store).1 = none ∧
      (deleteUserEntry B N.id store).1 = false) := by
  refine ⟨?_, ?_, ?_⟩
  · intro h
    exact hne ((hown ▸ mem_getUserEntries_owner hWF B N h).symm)
  · intro r hr
    simp only [updateUserEntry] at hr
    cases hres : updateEntryInList B N.id title content att now
        (getUserEntries B store) with
    | none => rw [hres] at hr; cases hr
    | some p =>
      rw [hres] at hr
      cases p with
      | mk u lu =>
        cases hr
        exact updateEntryInList_some_owner hres
  · intro hno
    constructor
    · simp only [updateUserEntry]
      rw [updateEntryInList_none hno]
    · simp only [deleteUserEntry]
      rw [removeEntryFromList_none hno]

/-- A store holding only the note of user "1", written through the
adapter. -/
def c1wStore : Store := saveUserEntries "1" [c1NoteA] (emptyStore true)

/-- Witness for C1 (amended): with no id collision, user "2" does not see
the note of user "1", and update and delete by user "2" targeting its id
return null and false. -/
theorem cross_user_isolation_amended_witness :
    c1NoteA ∉ getUserEntries "2" c1wStore ∧
    (updateUserEntry "2" c1NoteA.id "t2" "c2" none 5 c1wStore).1 = none ∧
    (deleteUserEntry "2" c1NoteA.id c1wStore).1 = false := by
  have h := cross_user_isolation_amended "1" "2" c1NoteA c1wStore
    (wellFormed_save "1" [c1NoteA] (wellFormed_empty true)) (by decide) rfl
    (by decide) "t2" "c2" none 5
  exact ⟨h.1, (h.2.2 (by decide)).1, (h.2.2 (by decide)).2⟩

theorem updateEntryInList_first_match (userId id title content : String)
    (att : Option (List FileAttachment)) (now : Nat)
    (pre : List TextEntry) (E : TextEntry) (post : List TextEntry)
    (hpre : ∀ e ∈ pre, ¬((e.id == id && e.userId == userId) = true))
    (hE : (E.id == id && E.userId == userId) = true) :
    updateEntryInList userId id title content att now (pre ++ E :: post) =
      some (applyEntryUpdate title content att now E,
        pre ++ applyEntryUpdate title content att now E :: post) := by
  induction pre with
  | nil =>
    simp only [List.nil_append]
    unfold updateEntryInList
    rw [if_pos hE]
  | cons a pre ih =>
    simp only [List.cons_append]
    unfold updateEntryInList
    rw [if_neg (hpre a (List.mem_cons_self a pre)),
      ih (fun e he => hpre e (List.mem_cons_of_mem a he))]

/-- C9: updating an existing entry E of the user (the first entry carrying
its id) returns exactly `applyEntryUpdate` of E: `updatedAt` becomes the
update time (strictly later than before, the clock having advanced), id,
`createdAt` and `userId` are unchanged, title and content become the
trimmed arguments, attachments are replaced only when supplied, and the
user's list after the update is the old list with only E replaced — every
other entry is untouched. -/
theorem update_frame (userId : String) (store : Store)
    (pre : List TextEntry) (E : TextEntry) (post : List TextEntry)
    (hlist : getUserEntries userId store = pre ++ E :: post)
    (howned : ∀ e ∈ getUserEntries userId store, e.userId = userId)
    (hpre : ∀ e ∈ pre, e.id ≠ E.id)
    (title content : String) (att : Option (List FileAttachment)) (now : Nat)
    (hclock : E.updatedAt < now) :
    updateUserEntry userId E.id title content att now store =
      (some (applyEntryUpdate title content att now E), saveUserEntries userId (pre ++ applyEntryUpdate title content att now E :: post) store) ∧
    (applyEntryUpdate title content att now E).id = E.id ∧
    (applyEntryUpdate title content att now E).createdAt = E.createdAt ∧
    (applyEntryUpdate title content att now E).userId = E.userId ∧
    (applyEntryUpdate title content att now E).title = title.trim ∧
    (applyEntryUpdate title content att now E).content = content.trim ∧
    (applyEntryUpdate title content att now E).updatedAt = now ∧
    E.updatedAt < (applyEntryUpdate title content att now E).updatedAt ∧
    (applyEntryUpdate title content att now E).attachments = (if att.isSome then att else E.attachments) ∧
    getUserEntries userId (updateUserEntry userId E.id title content att now store).2 = pre ++ applyEntryUpdate title content att now E :: post := by
  have hEmem : E ∈ getUserEntries userId store := by
    rw [hlist]
    exact List.mem_append.mpr (Or.inr (List.mem_cons_self E post))
  have hEown : E.userId = userId := howned E hEmem
  have hE : (E.id == E.id && E.userId == userId) = true := by simp [hEown]
  have hpreB : ∀ e ∈ pre, ¬((e.id == E.id && e.userId == userId) = true) := by
    intro e he hc
    exact hpre e he (by simpa using ((Bool.and_eq_true _ _).mp hc).1)
  have hupd : updateEntryInList userId E.id title content att now
      (getUserEntries userId store) =
      some (applyEntryUpdate title content att now E,
        pre ++ applyEntryUpdate title content att now E :: post) := by
    rw [hlist]
    exact updateEntryInList_first_match userId E.id title content att now
      pre E post hpreB hE
  have hmain : updateUserEntry userId E.id title content att now store =
      (some (applyEntryUpdate title content att now E), saveUserEntries userId (pre ++ applyEntryUpdate title content att now E :: post) store) := by
    simp only [updateUserEntry]
    rw [hupd]
  have hallowned : ∀ e ∈ pre ++ applyEntryUpdate title content att now E :: post,
      (e.userId == userId) = true := by
    intro e he
    rcases List.mem_append.mp he with hl | hr
    · have : e ∈ getUserEntries userId store := by
        rw [hlist]; exact List.mem_append.mpr (Or.inl hl)
      simp [howned e this]
    · rcases List.mem_cons.mp hr with he' | hp
      · subst he'
        show ((applyEntryUpdate title content att now E).userId == userId) = true
        simp [applyEntryUpdate, hEown]
      · have : e ∈ getUserEntries userId store := by
          rw [hlist]
          exact List.mem_append.mpr (Or.inr (List.mem_cons_of_mem E hp))
        simp [howned e this]
  refine ⟨hmain, rfl, rfl, rfl, rfl, rfl, rfl, hclock, rfl, ?_⟩
  rw [hmain]
  show getUserEntries userId (saveUserEntries userId _ store) = _
  rw [getUserEntries_save]
  exact List.filter_eq_self.mpr hallowned

/-- A note of user "1", last updated at time 0. -/
def c9E : TextEntry :=
  { id := "x", title := "t", content := "c", createdAt := 0, updatedAt := 0, userId := "1", attachments := none }

/-- A store holding only that note, written through the adapter. -/
def c9Store : Store := saveUserEntries "1" [c9E] (emptyStore true)

/-- Witness for C9: updating the single stored note at time 5. -/
theorem update_frame_witness :
    updateUserEntry "1" "x" "t2" "c2" none 5 c9Store =
      (some (applyEntryUpdate "t2" "c2" none 5 c9E), saveUserEntries "1" ([] ++ applyEntryUpdate "t2" "c2" none 5 c9E :: []) c9Store) ∧
    (applyEntryUpdate "t2" "c2" none 5 c9E).id = "x" ∧
    (applyEntryUpdate "t2" "c2" none 5 c9E).createdAt = 0 ∧
    (applyEntryUpdate "t2" "c2" none 5 c9E).userId = "1" ∧
    (applyEntryUpdate "t2" "c2" none 5 c9E).title = ("t2" : String).trim ∧
    (applyEntryUpdate "t2" "c2" none 5 c9E).content = ("c2" : String).trim ∧
    (applyEntryUpdate "t2" "c2" none 5 c9E).updatedAt = 5 ∧
    (0 : Nat) < (applyEntryUpdate "t2" "c2" none 5 c9E).updatedAt ∧
    (applyEntryUpdate "t2" "c2" none 5 c9E).attachments = (if (none : Option (List FileAttachment)).isSome then none else c9E.attachments) ∧
    getUserEntries "1" (updateUserEntry "1" "x" "t2" "c2" none 5 c9Store).2 = [] ++ applyEntryUpdate "t2" "c2" none 5 c9E :: [] :=
  update_frame "1" c9Store [] c9E [] (by decide) (by decide) (by decide)
    "t2" "c2" none 5 (by decide)

end ShareHere
